import Mathlib

/-!
Verification of `src/services/initiate_balanced_channel.js` from the
balanceofsatoshis repository (MButcho fork).

The embedding is shallow: each JavaScript helper or `asyncAuto` task that a
claim refers to is translated into an executable Lean definition.  Buffers are
`List Nat` with each element a byte value below 256, hex strings are `String`,
JS numbers in monetary positions are `Int` (or `Rat` where the source divides),
and the two-listener acceptance wait is a step function on an explicit listener
state driven by an event list (the single-threaded JS event loop delivers the
events one at a time, and `removeAllListeners` / `stop` are modelled by the
listener flags that gate each handler).
-/

namespace BOS

/-! ### Bytes and hex strings

`Buffer.from(hex, "hex")` and `buffer.toString("hex")` from the source are
embedded as `hexToBytes` / `bytesToHex`.  The decoder accepts both upper and
lower case digits, exactly like the node Buffer decoder. -/

/-- The sixteen lower-case hex digit characters, in numeric order. -/
def lowerHexDigits : List Char :=
  ['0', '1', '2', '3', '4', '5', '6', '7'] ++ ['8', '9', 'a', 'b', 'c', 'd', 'e', 'f']

/-- Numeric value of one hex digit character (0 for non-digits, as a total stand-in). -/
def hexVal (c : Char) : Nat :=
  match c with
  | '0' => 0 | '1' => 1 | '2' => 2 | '3' => 3 | '4' => 4
  | '5' => 5 | '6' => 6 | '7' => 7 | '8' => 8 | '9' => 9
  | 'a' => 10 | 'b' => 11 | 'c' => 12 | 'd' => 13 | 'e' => 14 | 'f' => 15
  | 'A' => 10 | 'B' => 11 | 'C' => 12 | 'D' => 13 | 'E' => 14 | 'F' => 15
  | _ => 0

/-- The lower-case hex digit character of a value below 16. -/
def natToHexDigit (n : Nat) : Char := lowerHexDigits.getD n '0'

/-- Decode a list of hex characters two at a time into bytes (trailing odd digit
dropped, as the node Buffer decoder does). -/
def hexPairsToBytes : List Char → List Nat
  | c1 :: c2 :: rest => (16 * hexVal c1 + hexVal c2) :: hexPairsToBytes rest
  | _ => []

/-- Embedding of `Buffer.from(s, "hex")`. -/
def hexToBytes (s : String) : List Nat := hexPairsToBytes s.data

/-- Encode bytes as lower-case hex characters. -/
def bytesToHexChars : List Nat → List Char
  | [] => []
  | b :: rest => natToHexDigit (b / 16) :: natToHexDigit (b % 16) :: bytesToHexChars rest

/-- Embedding of `buffer.toString("hex")`, the `bufferAsHex` helper of the source. -/
def bytesToHex (l : List Nat) : String := String.mk (bytesToHexChars l)

/-- Lexicographic comparison of char lists by code point, the comparison JS
applies to strings (code-unit order; all strings here are ASCII). -/
def charListLt : List Char → List Char → Bool
  | [], [] => false
  | [], _ :: _ => true
  | _ :: _, [] => false
  | a :: as, b :: bs =>
    if a < b then true else if b < a then false else charListLt as bs

/-- JS string `<` (code-unit lexicographic order). -/
def strLt (a b : String) : Bool := charListLt a.data b.data

/-- A character is a lower-case hex digit. -/
def IsLowerHexChar (c : Char) : Prop := c ∈ lowerHexDigits

instance (c : Char) : Decidable (IsLowerHexChar c) := by
  unfold IsLowerHexChar; infer_instance

/-- A canonical (lower-case, 64-character) transaction id hex string. -/
def ValidTxId (s : String) : Prop :=
  s.data.length = 64 ∧ ∀ c ∈ s.data, IsLowerHexChar c

instance (s : String) : Decidable (ValidTxId s) := by
  unfold ValidTxId; infer_instance

/-! ### Big-endian integer encodings and SHA-256

`writeBigUInt64BE` from `messagesToPush` is `uint64BE` (faithful for values
below 2^64, which covers every record type tag the source uses), and the
`createHash("sha256")` dependency is embedded as a full FIPS 180-4 SHA-256
over byte lists, with 32-bit words as `Nat` reduced mod 2^32. -/

/-- Big-endian 8-byte encoding of a value below 2^64 (`type.writeBigUInt64BE`). -/
def uint64BE (n : Nat) : List Nat :=
  [n / 2 ^ 56 % 256, n / 2 ^ 48 % 256, n / 2 ^ 40 % 256, n / 2 ^ 32 % 256,
   n / 2 ^ 24 % 256, n / 2 ^ 16 % 256, n / 2 ^ 8 % 256, n % 256]

/-- Big-endian 4-byte encoding of a 32-bit word. -/
def uint32BE (n : Nat) : List Nat :=
  [n / 2 ^ 24 % 256, n / 2 ^ 16 % 256, n / 2 ^ 8 % 256, n % 256]

/-- Right-rotation of a 32-bit word held as a `Nat` below 2^32. -/
def rotr32 (x n : Nat) : Nat := x / 2 ^ n + x % 2 ^ n * 2 ^ (32 - n)

/-- Bitwise complement of a 32-bit word held as a `Nat` below 2^32. -/
def not32 (x : Nat) : Nat := 4294967295 - x

/-- Three-way xor. -/
def xor3 (a b c : Nat) : Nat := (a ^^^ b) ^^^ c

/-- The SHA-256 round constants. -/
def sha256K : Array Nat := #[
  1116352408, 1899447441, 3049323471, 3921009573,
  961987163, 1508970993, 2453635748, 2870763221,
  3624381080, 310598401, 607225278, 1426881987,
  1925078388, 2162078206, 2614888103, 3248222580,
  3835390401, 4022224774, 264347078, 604807628,
  770255983, 1249150122, 1555081692, 1996064986,
  2554220882, 2821834349, 2952996808, 3210313671,
  3336571891, 3584528711, 113926993, 338241895,
  666307205, 773529912, 1294757372, 1396182291,
  1695183700, 1986661051, 2177026350, 2456956037,
  2730485921, 2820302411, 3259730800, 3345764771,
  3516065817, 3600352804, 4094571909, 275423344,
  430227734, 506948616, 659060556, 883997877,
  958139571, 1322822218, 1537002063, 1747873779,
  1955562222, 2024104815, 2227730452, 2361852424,
  2428436474, 2756734187, 3204031479, 3329325298]

/-- The SHA-256 initial hash value. -/
def sha256H0 : List Nat :=
  [1779033703, 3144134277, 1013904242, 2773480762,
   1359893119, 2600822924, 528734635, 1541459225]

/-- Pack bytes into big-endian 32-bit words. -/
def bytesToWords : List Nat → List Nat
  | a :: b :: c :: d :: rest => (((a * 256 + b) * 256 + c) * 256 + d) :: bytesToWords rest
  | _ => []

/-- Split a byte list into 64-byte chunks. -/
def chunk64 (l : List Nat) : List (List Nat) :=
  if l.isEmpty then [] else l.take 64 :: chunk64 (l.drop 64)
termination_by l.length
decreasing_by
  cases l with
  | nil => simp_all
  | cons a t => simp [List.length_drop]; omega

/-- Extend the sixteen message-schedule words of one block to sixty-four. -/
def sha256Extend (w0 : Array Nat) : Array Nat :=
  (List.range 48).foldl (fun w j =>
    let i := j + 16
    let x := w[i - 15]!
    let y := w[i - 2]!
    let s0 := xor3 (rotr32 x 7) (rotr32 x 18) (x / 2 ^ 3)
    let s1 := xor3 (rotr32 y 17) (rotr32 y 19) (y / 2 ^ 10)
    w.push ((w[i - 16]! + s0 + w[i - 7]! + s1) % 4294967296)) w0

/-- The SHA-256 compression function over one 64-byte block. -/
def sha256Compress (hs : List Nat) (block : List Nat) : List Nat :=
  let w := sha256Extend (Array.mk (bytesToWords block))
  match hs with
  | [a0, b0, c0, d0, e0, f0, g0, h0] =>
    let final := (List.range 64).foldl
      (fun (st : Nat × Nat × Nat × Nat × Nat × Nat × Nat × Nat) i =>
        let (a, b, c, d, e, f, g, h) := st
        let s1 := xor3 (rotr32 e 6) (rotr32 e 11) (rotr32 e 25)
        let ch := (e &&& f) ^^^ (not32 e &&& g)
        let t1 := (h + s1 + ch + sha256K[i]! + w[i]!) % 4294967296
        let s0 := xor3 (rotr32 a 2) (rotr32 a 13) (rotr32 a 22)
        let mj := ((a &&& b) ^^^ (a &&& c)) ^^^ (b &&& c)
        let t2 := (s0 + mj) % 4294967296
        ((t1 + t2) % 4294967296, a, b, c, (d + t1) % 4294967296, e, f, g))
      (a0, b0, c0, d0, e0, f0, g0, h0)
    match final with
    | (a, b, c, d, e, f, g, h) =>
      [(a0 + a) % 4294967296, (b0 + b) % 4294967296, (c0 + c) % 4294967296,
       (d0 + d) % 4294967296, (e0 + e) % 4294967296, (f0 + f) % 4294967296,
       (g0 + g) % 4294967296, (h0 + h) % 4294967296]
  | _ => hs

/-- SHA-256 of a byte list, as a byte list. -/
def sha256Bytes (msg : List Nat) : List Nat :=
  let padLen := (64 - (msg.length + 9) % 64) % 64
  let padded := msg ++ [0x80] ++ List.replicate padLen 0 ++ uint64BE (8 * msg.length)
  ((chunk64 padded).foldl sha256Compress sha256H0).flatMap uint32BE

/-- Embedding of the `sha256` helper of the source (hex-string digest). -/
def sha256Hex (msg : List Nat) : String := bytesToHex (sha256Bytes msg)

/-! ### Negotiation records and the correlation digest (`messagesToPush`)

A record is a `{type, value}` pair: the source keeps the type as a decimal
string and compares with `Number(...)` / `BigInt(...)`, so the numeric type is
carried directly as a `Nat`; the value stays a hex `String` exactly as in the
source (`hexAsBuffer` is applied only where the source applies it). -/

/-- One typed message record, as pushed over keysend or the p2p service. -/
structure NegRecord where
  type : Nat
  value : String
deriving DecidableEq, Repr

/-- Serialization of one record inside the digest pre-image:
8-byte big-endian type followed by the value bytes. -/
def recordBytes (r : NegRecord) : List Nat := uint64BE r.type ++ hexToBytes r.value

/-- The sort `messages.sort((a, b) => Number(a.type) - Number(b.type))`: a stable
sort ascending by numeric type (ES2019 `Array.prototype.sort` is stable; any
correct stable sort produces the same list). -/
def sortRecords (l : List NegRecord) : List NegRecord :=
  List.insertionSort (fun a b => a.type ≤ b.type) l

/-- The canonical digest pre-image of `messagesToPush`: records sorted ascending
by type, each serialized as `{8-byte BE type}{value bytes}`, concatenated. -/
def canonicalBytes (l : List NegRecord) : List Nat :=
  (sortRecords l).flatMap recordBytes

/-- The CorrelationDigest: `sha256(Buffer.concat(...))` over the canonical
pre-image, hex-encoded. -/
def correlationDigest (l : List NegRecord) : String := sha256Hex (canonicalBytes l)

instance : IsTotal NegRecord (fun a b => a.type ≤ b.type) :=
  ⟨fun a b => Nat.le_total a.type b.type⟩

instance : IsTrans NegRecord (fun a b => a.type ≤ b.type) :=
  ⟨fun _ _ _ => Nat.le_trans⟩

instance : IsAntisymm NegRecord (fun a b => a.type < b.type) :=
  ⟨fun _ _ h1 h2 => absurd (Nat.lt_trans h1 h2) (Nat.lt_irrefl _)⟩

/-! ### Multisig derivation (`deriveFundingAddress`)

`publicKeys.sort()` is the default JS sort: lexicographic comparison of the hex
strings by code unit, which for ASCII strings coincides with the `String`
linear order.  `p2ms({m: 2, pubkeys})` with two 33-byte compressed keys yields
the witness script `OP_2 <33> k1 <33> k2 OP_2 OP_CHECKMULTISIG`, and `p2wsh`
hashes it with a single SHA-256 into the `0x0020...` output script. -/

/-- The `isPublicKey` check of the source: `/^0[2-3][0-9A-F]{64}$/i`. -/
def isPublicKey (s : String) : Bool :=
  match s.data with
  | '0' :: c2 :: rest =>
    (c2 == '2' || c2 == '3') && rest.length == 64 &&
      rest.all (fun c => lowerHexDigits.contains c ||
        ['A', 'B', 'C', 'D', 'E', 'F'].contains c)
  | _ => false

/-- Default JS `Array.prototype.sort` on a two-element string array. -/
def sortPairStr (a b : String) : String × String :=
  if strLt b a then (b, a) else (a, b)

/-- The derived funding script and its hash, both hex (the cbk value of the source). -/
structure FundingAddr where
  hash : String
  script : String
deriving DecidableEq, Repr

/-- The 2-of-2 `p2ms` redeem script over two 33-byte compressed keys. -/
def p2msScript (k1 k2 : List Nat) : List Nat :=
  [0x52, 0x21] ++ k1 ++ [0x21] ++ k2 ++ [0x52, 0xae]

/-- Embedding of the `deriveFundingAddress` task body: sort the two hex keys,
build the 2-of-2 witness script, wrap in p2wsh. -/
def deriveFundingAddress (ownKey remoteKey : String) : FundingAddr :=
  let p := sortPairStr ownKey remoteKey
  let redeem := p2msScript (hexToBytes p.1) (hexToBytes p.2)
  let h := sha256Bytes redeem
  { hash := bytesToHex h, script := bytesToHex ([0x00, 0x20] ++ h) }

/-! ### Capacity / fee prompts and the transit funding check

Monetary amounts entered at the prompts are modelled as `Int` (every amount
flowing through these tasks is a whole token count; `isNumber` is then always
true, and `isOdd(n)`, truthiness of `n % 2` in JS, is `n % 2 ≠ 0`).
`fundingAmount` divides in `Rat`, exactly like the JS `/`.  Failures are
`Except.error` carrying the error string of the source; `asyncAuto` dependencies are
the monadic binds, so an error in `askForCapacity` prevents every dependent
task (and in particular every call of `giveTokens` and the funding
construction) from running, matching the fail-fast semantics of `asyncAuto`. -/

/-- The `giveTokens` helper of the source: `capacity => Math.ceil(capacity / 2)`. -/
def giveTokens (capacity : Int) : Int := ⌈(capacity : ℚ) / 2⌉

/-- The `fundingAmount` helper of the source: `(capacity + (190 * rate)) / 2` in JS number
arithmetic. -/
def fundingAmount (capacity rate : Int) : ℚ := ((capacity : ℚ) + 190 * rate) / 2

/-- The `askForCapacity` task: reject odd capacity before anything downstream. -/
def askForCapacity (capacity : Int) : Except String Int :=
  if capacity % 2 ≠ 0 then Except.error "ExpectedEvenCapacityToSplitBalance"
  else Except.ok capacity

/-- The `askForFeeRate` task: on an integer model the `isNumber` test passes. -/
def askForFeeRate (rate : Int) : Except String Int := Except.ok rate

/-- The use of `giveTokens(askForCapacity)` by the `testOpenChannel` task: it can run
only after `askForCapacity` succeeded. -/
def testOpenChannelGive (capacity : Int) : Except String Int := do
  let cap ← askForCapacity capacity
  pure (giveTokens cap)

/-- One output of the wallet-funded transaction (`fromHex(fund).outs`): an
output script (hex) and a value.  The value is kept in `Rat` so that the strict
JS `!==` comparison against the possibly fractional `tokens` is exact. -/
structure TxOut where
  script : String
  value : ℚ
deriving DecidableEq, Repr

/-- Result of the `askForFunding` task (the fields the later tasks consume). -/
structure FundingRes where
  tokens : ℚ
  transaction_vout : Nat
deriving DecidableEq, Repr

/-- The verification half of `askForFunding`: given the wallet response
(`none` models a missing `res.transaction`), find the first output paying to
the transit address and insist it carries exactly the requested amount. -/
def askForFundingCheck (capacity rate : Int) (transitScript : String)
    (fund : Option (List TxOut)) : Except String FundingRes :=
  let tokens := fundingAmount capacity rate
  match fund with
  | none => Except.error "ExpectedTransactionToInitiateBalancedOpen"
  | some outs =>
    match outs.enum.find? (fun p => p.2.script == transitScript) with
    | none => Except.error "ExpectedInitTxOutputPayingToTransitAddress"
    | some (vout, out) =>
      if out.value ≠ tokens then
        Except.error "UnexpectedFundingAmountPayingToTransitAddress"
      else Except.ok { tokens := tokens, transaction_vout := vout }

instance {e a : Type} [DecidableEq e] [DecidableEq a] : DecidableEq (Except e a) := fun x y =>
  match x, y with
  | Except.error e1, Except.error e2 =>
    if h : e1 = e2 then isTrue (by rw [h]) else isFalse (by intro hc; cases hc; exact h rfl)
  | Except.error _, Except.ok _ => isFalse (by intro hc; cases hc)
  | Except.ok a1, Except.ok a2 =>
    if h : a1 = a2 then isTrue (by rw [h]) else isFalse (by intro hc; cases hc; exact h rfl)
  | Except.ok _, Except.error _ => isFalse (by intro hc; cases hc)

/-- The prompt chain feeding the funding step, in `asyncAuto` dependency order:
`askForCapacity` gates `askForFeeRate` gates `askForFunding`. -/
def captureFunding (capacity rate : Int) (transitScript : String)
    (fund : Option (List TxOut)) : Except String FundingRes := do
  let cap ← askForCapacity capacity
  let r ← askForFeeRate rate
  askForFundingCheck cap r transitScript fund

/-! ### The acceptance wait (`p2pService` and `waitForAccept`)

`waitForAccept` arms two listeners: the p2p request handler (armed only when
`servicePeerRequests` is live — the dummy service installed when the test
message cannot be sent registers nothing) and the invoice subscription
(`invoice_updated` and `error` share the one emitter, torn down together by
`sub.removeAllListeners()`).  The single-threaded event loop delivers events in
sequence; each handler body first hits the deregistration guards, so a handler
whose listener was removed is a no-op.  `stepWait` is the exact handler bodies;
`runWait` folds it over an event trace, collecting every `cbk` resolution.

The acceptance payload parser (`balancedOpenAcceptDetails`, a module of
the repository that only this file calls) is a parameter `parse`: the claims
about this wait quantify over it, constraining only whether it throws. -/

/-- The contribution of the remote peer, as parsed from acceptance records
(the fields consumed by `deriveFundingAddress` and `halfSign`). -/
structure AcceptDetails where
  multisig_public_key : String
  transit_public_key : String
  funding_signature : String
  transaction_id : String
  transaction_vout : Nat
deriving DecidableEq, Repr

/-- A settling payment attached to the acceptance invoice. -/
structure InvPayment where
  messages : List NegRecord
deriving DecidableEq, Repr

/-- An `invoice_updated` event payload. -/
structure Invoice where
  is_confirmed : Bool
  payments : List InvPayment
deriving DecidableEq, Repr

/-- An event delivered to `waitForAccept` by the event loop. -/
inductive WaitEvent where
  | peer (sender : String) (records : List NegRecord)
  | invoice (inv : Invoice)
  | subError
deriving DecidableEq, Repr

/-- Which listeners are still registered. -/
structure WaitState where
  subOn : Bool
  p2pOn : Bool
deriving DecidableEq, Repr

/-- A `cbk` resolution of the wait. -/
inductive WaitOutcome where
  | accepted (a : AcceptDetails)
  | failed (msg : String)
deriving DecidableEq, Repr

/-- The handler bodies of `waitForAccept`, one event at a time. -/
def stepWait (parse : List NegRecord → Except String AcceptDetails)
    (partnerKey expectedId : String) (msType : Nat) (s : WaitState) :
    WaitEvent → WaitState × Option WaitOutcome
  | .peer sender records =>
    if s.p2pOn = false then (s, none)
    else if sender ≠ partnerKey then (s, none)
    else
      match records.find? (fun r => r.type == 0) with
      | none => (s, none)
      | some idRecord =>
        if idRecord.value ≠ expectedId then (s, none)
        else
          (⟨false, false⟩,
           some (match parse records with
             | Except.ok a => WaitOutcome.accepted a
             | Except.error m => WaitOutcome.failed m))
  | .invoice inv =>
    if s.subOn = false then (s, none)
    else if inv.is_confirmed = false then (s, none)
    else
      (⟨false, false⟩,
       match inv.payments.find? (fun p => p.messages.any (fun m => m.type == msType)) with
       | none => some (WaitOutcome.failed "ExpectedPaymentWithPeerChannelDetails")
       | some p =>
         some (match parse p.messages with
           | Except.ok a => WaitOutcome.accepted a
           | Except.error m => WaitOutcome.failed m))
  | .subError =>
    if s.subOn = false then (s, none)
    else (⟨false, false⟩, some (WaitOutcome.failed "UnexpectedErrorWaitingForChannelAccept"))

/-- Run the wait over a whole event trace, collecting every resolution. -/
def runWait (parse : List NegRecord → Except String AcceptDetails)
    (partnerKey expectedId : String) (msType : Nat) :
    WaitState → List WaitEvent → WaitState × List WaitOutcome
  | s, [] => (s, [])
  | s, e :: es =>
    let p := stepWait parse partnerKey expectedId msType s e
    let q := runWait parse partnerKey expectedId msType p.1 es
    (q.1, p.2.toList ++ q.2)

/-- A direct peer message that the handler accepts: right sender, a type-0
record equal to the expected id, and a payload that parses. -/
def ValidPeerEvent (parse : List NegRecord → Except String AcceptDetails)
    (partnerKey expectedId : String) : WaitEvent → Prop
  | .peer sender records =>
    sender = partnerKey ∧
    (∃ r, records.find? (fun x => x.type == 0) = some r ∧ r.value = expectedId) ∧
    ∃ a, parse records = Except.ok a
  | _ => False

/-- A confirmed invoice carrying a settling payment with a multisig-key-typed
record whose records parse. -/
def ValidInvoiceEvent (parse : List NegRecord → Except String AcceptDetails)
    (msType : Nat) : WaitEvent → Prop
  | .invoice inv =>
    inv.is_confirmed = true ∧
    ∃ p, inv.payments.find? (fun q => q.messages.any (fun m => m.type == msType)) = some p ∧
      ∃ a, parse p.messages = Except.ok a
  | _ => False

/-- The two services the `p2pService` task can hand to `waitForAccept`. -/
inductive P2PService where
  | real
  | dummy
deriving DecidableEq, Repr

/-- The `p2pService` task: when the test `sendMessageToPeer` errors, substitute
the no-op service instead of failing; either way the task succeeds. -/
def p2pServiceTask (sendErr : Option String) : Except String P2PService :=
  match sendErr with
  | some _ => Except.ok P2PService.dummy
  | none => Except.ok P2PService.real

/-- The listener state `waitForAccept` starts from: the invoice subscription is
always armed; `p2pService.request` registers a live handler only for the real
service (the dummy `request` does nothing). -/
def startWaitState : P2PService → WaitState
  | P2PService.real => ⟨true, true⟩
  | P2PService.dummy => ⟨true, false⟩

/-! ### The joint funding transaction (`halfSign`)

`halfSign` builds a fresh transaction from the two contributed outpoints.
`idAsHash` turns the displayed txid hex into the internal hash bytes
(`Buffer.from(id, "hex").reverse()`); the comparator sorts by
`bufferAsHex(hash).localeCompare(...)` falling back to `a.index - b.index`
(for lower-case hex strings of one length, `localeCompare` agrees with code
point order, i.e. with the order used here).  The transaction structure is
modelled as its input list plus its single output; the unsigned serialization
and the txid are functions of exactly this structure, so equal structures give
equal serializations and ids (segwit witnesses do not enter the txid). -/

/-- An outpoint contributed to the joint transaction (`askForFunding` /
`waitForAccept` fields consumed by `halfSign`). -/
structure Utxo where
  transaction_id : String
  transaction_vout : Nat
deriving DecidableEq, Repr

/-- One input of the joint transaction. -/
structure TxIn where
  hash : List Nat
  index : Nat
  sequence : Nat
deriving DecidableEq, Repr

/-- A constructed output of the joint transaction. -/
structure TxOutC where
  script : String
  value : Int
deriving DecidableEq, Repr

/-- The constructed transaction (inputs plus the single multisig output). -/
structure TxStruct where
  ins : List TxIn
  outs : List TxOutC
deriving DecidableEq, Repr

/-- The `idAsHash` helper of the source: decode the txid hex and reverse the bytes. -/
def idAsHash (id : String) : List Nat := (hexToBytes id).reverse

/-- Build one joint-transaction input from a contributed outpoint. -/
def mkTxIn (u : Utxo) : TxIn :=
  { hash := idAsHash u.transaction_id, index := u.transaction_vout, sequence := 0 }

/-- Sign-style string comparison standing in for `localeCompare` (for the
lower-case hex strings compared here, locale collation agrees with code-unit
order). -/
def strCompare (a b : String) : Int :=
  if strLt a b then -1 else if strLt b a then 1 else 0

/-- The `inputs.sort` comparator:
`bufferAsHex(a.hash).localeCompare(bufferAsHex(b.hash)) || a.index - b.index`. -/
def inputCmp (a b : TxIn) : Int :=
  let h := strCompare (bytesToHex a.hash) (bytesToHex b.hash)
  if h ≠ 0 then h else (a.index : Int) - (b.index : Int)

/-- JS `Array.prototype.sort` on a two-element array under a comparator. -/
def jsSortPair (cmp : α → α → Int) (a b : α) : List α :=
  if cmp a b > 0 then [b, a] else [a, b]

/-- The input list `halfSign` feeds `tx.addInput` with, in order:
`utxos = [askForFunding, waitForAccept]`, mapped and sorted. -/
def halfSignInputs (funding accept : Utxo) : List TxIn :=
  jsSortPair inputCmp (mkTxIn funding) (mkTxIn accept)

/-- The transaction structure `halfSign` constructs (inputs in sorted order and
the single multisig output of the full capacity). -/
def halfSignTx (funding accept : Utxo) (fundingScript : String) (capacity : Int) :
    TxStruct :=
  { ins := halfSignInputs funding accept
    outs := [{ script := fundingScript, value := capacity }] }

/-- Modelled from the spec: the input order the spec asserts, ascending by
`(txid-hex, vout)` on the displayed transaction ids, for refinement comparison
against `halfSignInputs`. -/
def specTxidOrderedInputs (funding accept : Utxo) : List TxIn :=
  (jsSortPair
    (fun a b : Utxo =>
      let h := strCompare a.transaction_id b.transaction_id
      if h ≠ 0 then h else (a.transaction_vout : Int) - (b.transaction_vout : Int))
    funding accept).map mkTxIn

/-- The ordering actually imposed on the two inputs: ascending by the hex of the
internal (byte-reversed) hash, then by output index. -/
def SortedByHashHex : List TxIn → Prop
  | [a, b] =>
    strLt (bytesToHex a.hash) (bytesToHex b.hash) = true ∨
      (bytesToHex a.hash = bytesToHex b.hash ∧ a.index ≤ b.index)
  | _ => False

/-! ### Helper lemmas: hex round trips -/

theorem hexVal_lt_16 (c : Char) : hexVal c < 16 := by
  unfold hexVal
  split <;> omega

theorem natToHexDigit_hexVal (c : Char) (h : IsLowerHexChar c) :
    natToHexDigit (hexVal c) = c := by
  unfold IsLowerHexChar lowerHexDigits at h
  fin_cases h <;> rfl

theorem hexVal_natToHexDigit (n : Nat) (h : n < 16) :
    hexVal (natToHexDigit n) = n := by
  interval_cases n <;> rfl

theorem hexPairsToBytes_lt (l : List Char) : ∀ b ∈ hexPairsToBytes l, b < 256 := by
  induction l using hexPairsToBytes.induct with
  | case1 c1 c2 rest ih =>
    intro b hb
    simp only [hexPairsToBytes, List.mem_cons] at hb
    rcases hb with rfl | hb
    · have h1 := hexVal_lt_16 c1
      have h2 := hexVal_lt_16 c2
      omega
    · exact ih b hb
  | case2 l h => cases l with
    | nil => intro b hb; simp [hexPairsToBytes] at hb
    | cons c rest =>
      cases rest with
      | nil => intro b hb; simp [hexPairsToBytes] at hb
      | cons c2 r2 => exact absurd rfl (h c c2 r2)

theorem bytesToHexChars_hexPairsToBytes (l : List Char)
    (hval : ∀ c ∈ l, IsLowerHexChar c) (heven : l.length % 2 = 0) :
    bytesToHexChars (hexPairsToBytes l) = l := by
  induction l using hexPairsToBytes.induct with
  | case1 c1 c2 rest ih =>
    have h1 : IsLowerHexChar c1 := hval c1 (by simp)
    have h2 : IsLowerHexChar c2 := hval c2 (by simp)
    have hv1 := hexVal_lt_16 c1
    have hv2 := hexVal_lt_16 c2
    simp only [hexPairsToBytes, bytesToHexChars]
    have hdiv : (16 * hexVal c1 + hexVal c2) / 16 = hexVal c1 := by omega
    have hmod : (16 * hexVal c1 + hexVal c2) % 16 = hexVal c2 := by omega
    rw [hdiv, hmod, natToHexDigit_hexVal c1 h1, natToHexDigit_hexVal c2 h2,
      ih (fun c hc => hval c (by simp [hc]))
        (by simp only [List.length_cons] at heven; omega)]
  | case2 l h => cases l with
    | nil => rfl
    | cons c rest =>
      cases rest with
      | nil => simp at heven
      | cons c2 r2 => exact absurd rfl (h c c2 r2)

theorem hexPairsToBytes_bytesToHexChars (l : List Nat) (h : ∀ b ∈ l, b < 256) :
    hexPairsToBytes (bytesToHexChars l) = l := by
  induction l with
  | nil => rfl
  | cons b rest ih =>
    have hb : b < 256 := h b (by simp)
    simp only [bytesToHexChars, hexPairsToBytes]
    have hdl : b / 16 < 16 := by omega
    have hml : b % 16 < 16 := by omega
    rw [hexVal_natToHexDigit _ hdl, hexVal_natToHexDigit _ hml,
      ih (fun x hx => h x (by simp [hx]))]
    congr 1
    omega

theorem bytesToHex_hexToBytes (s : String) (h : ValidTxId s) :
    bytesToHex (hexToBytes s) = s := by
  obtain ⟨hlen, hval⟩ := h
  unfold bytesToHex hexToBytes
  rw [bytesToHexChars_hexPairsToBytes s.data hval (by omega)]

theorem bytesToHex_inj (l1 l2 : List Nat) (h1 : ∀ b ∈ l1, b < 256)
    (h2 : ∀ b ∈ l2, b < 256) (h : bytesToHex l1 = bytesToHex l2) : l1 = l2 := by
  have hc : bytesToHexChars l1 = bytesToHexChars l2 := by
    have := congrArg String.data h
    simpa [bytesToHex] using this
  calc l1 = hexPairsToBytes (bytesToHexChars l1) := (hexPairsToBytes_bytesToHexChars l1 h1).symm
    _ = hexPairsToBytes (bytesToHexChars l2) := by rw [hc]
    _ = l2 := hexPairsToBytes_bytesToHexChars l2 h2

theorem hexToBytes_inj (s1 s2 : String) (h1 : ValidTxId s1) (h2 : ValidTxId s2)
    (h : hexToBytes s1 = hexToBytes s2) : s1 = s2 := by
  calc s1 = bytesToHex (hexToBytes s1) := (bytesToHex_hexToBytes s1 h1).symm
    _ = bytesToHex (hexToBytes s2) := by rw [h]
    _ = s2 := bytesToHex_hexToBytes s2 h2

theorem hexToBytes_lt (s : String) : ∀ b ∈ hexToBytes s, b < 256 :=
  hexPairsToBytes_lt s.data

/-! ### Helper lemmas: the canonical record sort -/

theorem sortRecords_sorted_lt (l : List NegRecord) (hnd : (l.map NegRecord.type).Nodup) :
    (sortRecords l).Sorted (fun a b => a.type < b.type) := by
  have hs : (sortRecords l).Sorted (fun a b => a.type ≤ b.type) :=
    List.sorted_insertionSort _ l
  have hperm : List.Perm (sortRecords l) l := List.perm_insertionSort _ l
  have hnd2 : ((sortRecords l).map NegRecord.type).Nodup :=
    ((hperm.map NegRecord.type).nodup_iff).mpr hnd
  have hne : (sortRecords l).Pairwise (fun a b => a.type ≠ b.type) :=
    List.pairwise_map.mp hnd2
  exact (hs.and hne).imp (fun h => Nat.lt_of_le_of_ne h.1 h.2)

theorem sortRecords_perm_eq (l1 l2 : List NegRecord)
    (hnd : (l1.map NegRecord.type).Nodup) (hp : l1.Perm l2) :
    sortRecords l1 = sortRecords l2 := by
  have hnd2 : (l2.map NegRecord.type).Nodup := ((hp.map NegRecord.type).nodup_iff).mp hnd
  have hperm : List.Perm (sortRecords l1) (sortRecords l2) :=
    ((List.perm_insertionSort _ l1).trans hp).trans (List.perm_insertionSort _ l2).symm
  exact List.eq_of_perm_of_sorted hperm
    (sortRecords_sorted_lt l1 hnd) (sortRecords_sorted_lt l2 hnd2)

/-- C4: permuting the record list handed to the digest step of `messagesToPush`
leaves the CorrelationDigest unchanged, because the records are first sorted
ascending by numeric type (the six negotiation records all have distinct types,
which the `Nodup` hypothesis captures) and the digest is SHA-256 over the
concatenation of the `{8-byte big-endian type, value-bytes}` pairs of the
sorted list. -/
theorem correlationDigest_perm_invariant (l1 l2 : List NegRecord)
    (hnd : (l1.map NegRecord.type).Nodup) (hp : l1.Perm l2) :
    correlationDigest l1 = correlationDigest l2 := by
  unfold correlationDigest canonicalBytes
  rw [sortRecords_perm_eq l1 l2 hnd hp]

theorem charListLt_asymm :
    ∀ l1 l2 : List Char, charListLt l1 l2 = true → charListLt l2 l1 = false
  | [], [], h => by simp [charListLt] at h
  | [], _ :: _, _ => rfl
  | _ :: _, [], h => by simp [charListLt] at h
  | a :: as, b :: bs, h => by
    simp only [charListLt] at h ⊢
    by_cases hab : a < b
    · simp [hab, lt_asymm hab]
    · by_cases hba : b < a
      · simp [hab, hba] at h
      · simp only [hab, hba, if_false] at h ⊢
        simp [charListLt_asymm as bs h]

theorem charListLt_antisymm :
    ∀ l1 l2 : List Char, charListLt l1 l2 = false → charListLt l2 l1 = false → l1 = l2
  | [], [], _, _ => rfl
  | [], _ :: _, h1, _ => by simp [charListLt] at h1
  | _ :: _, [], _, h2 => by simp [charListLt] at h2
  | a :: as, b :: bs, h1, h2 => by
    simp only [charListLt] at h1 h2
    by_cases hab : a < b
    · simp [hab] at h1
    · by_cases hba : b < a
      · simp [hba, lt_asymm hba] at h2
      · have he : a = b := le_antisymm (not_lt.mp hba) (not_lt.mp hab)
        simp only [hab, hba, if_false, lt_asymm] at h1 h2
        rw [he, charListLt_antisymm as bs (by simpa [he] using h1) (by simpa [he] using h2)]

theorem strLt_asymm (a b : String) (h : strLt a b = true) : strLt b a = false :=
  charListLt_asymm a.data b.data h

theorem strLt_antisymm (a b : String) (h1 : strLt a b = false)
    (h2 : strLt b a = false) : a = b := by
  cases a with
  | mk d1 =>
    cases b with
    | mk d2 =>
      rw [charListLt_antisymm d1 d2 h1 h2]

/-- Helper: the default two-element JS string sort does not depend on the
argument order. -/
theorem sortPairStr_comm (a b : String) : sortPairStr a b = sortPairStr b a := by
  unfold sortPairStr
  by_cases hab : strLt a b = true <;> by_cases hba : strLt b a = true
  · exact absurd hba (by simp [strLt_asymm a b hab])
  · simp [hab, hba]
  · simp [hab, hba]
  · have h := strLt_antisymm a b (by simpa using hab) (by simpa using hba)
    subst h
    rfl

/-- C5: the derived 2-of-2 witness script and its hash do not depend on which
valid public key is "own" and which is "remote", because
`deriveFundingAddress` sorts the two keys before building the script. -/
theorem deriveFundingAddress_symm (a b : String)
    (_ha : isPublicKey a = true) (_hb : isPublicKey b = true) :
    deriveFundingAddress a b = deriveFundingAddress b a := by
  unfold deriveFundingAddress
  rw [sortPairStr_comm]

/-- Witness for C5 at two concrete valid compressed public keys. -/
theorem deriveFundingAddress_symm_witness :
    isPublicKey
      "02aaaaaaaaaaaaaaaaaaaaaaaaaaaaaaaaaaaaaaaaaaaaaaaaaaaaaaaaaaaaaaaa" = true ∧
    isPublicKey
      "03bbbbbbbbbbbbbbbbbbbbbbbbbbbbbbbbbbbbbbbbbbbbbbbbbbbbbbbbbbbbbbbb" = true ∧
    deriveFundingAddress
      "02aaaaaaaaaaaaaaaaaaaaaaaaaaaaaaaaaaaaaaaaaaaaaaaaaaaaaaaaaaaaaaaa"
      "03bbbbbbbbbbbbbbbbbbbbbbbbbbbbbbbbbbbbbbbbbbbbbbbbbbbbbbbbbbbbbbbb" =
    deriveFundingAddress
      "03bbbbbbbbbbbbbbbbbbbbbbbbbbbbbbbbbbbbbbbbbbbbbbbbbbbbbbbbbbbbbbbb"
      "02aaaaaaaaaaaaaaaaaaaaaaaaaaaaaaaaaaaaaaaaaaaaaaaaaaaaaaaaaaaaaaaa" :=
  ⟨by decide, by decide, deriveFundingAddress_symm _ _ (by decide) (by decide)⟩

/-- C6: any capacity that passes the `askForCapacity` validation (the only
route by which a capacity reaches `giveTokens` in `testOpenChannel`,
`signChannelFunding` or `propose`) is even, and on it
`giveTokens(capacity) = capacity / 2` exactly; an odd capacity makes the
dependent task fail with the validation error instead of ever applying
`giveTokens`. -/
theorem giveTokens_even_half (capacity : Int) :
    (∀ v, askForCapacity capacity = Except.ok v →
      v % 2 = 0 ∧ giveTokens v = v / 2 ∧
        testOpenChannelGive capacity = Except.ok (v / 2)) ∧
    (capacity % 2 ≠ 0 →
      testOpenChannelGive capacity =
        Except.error "ExpectedEvenCapacityToSplitBalance") := by
  constructor
  · intro v hv
    unfold askForCapacity at hv
    by_cases h : capacity % 2 ≠ 0
    · simp [h] at hv
    · simp [h] at hv
      push_neg at h
      subst hv
      have hk : ∃ k : Int, capacity = 2 * k := ⟨capacity / 2, by omega⟩
      obtain ⟨k, rfl⟩ := hk
      have hg : giveTokens (2 * k) = k := by
        unfold giveTokens
        have hq : ((2 * k : Int) : ℚ) / 2 = (k : ℚ) := by push_cast; ring
        rw [hq, Int.ceil_intCast]
      have hd : 2 * k / 2 = k := by omega
      refine ⟨by omega, by rw [hg, hd], ?_⟩
      unfold testOpenChannelGive askForCapacity
      simp [h, hg, hd]
  · intro h
    unfold testOpenChannelGive askForCapacity
    simp [h]

/-- Witness for C6 at the even capacity 2000000. -/
theorem giveTokens_even_half_witness :
    askForCapacity 2000000 = Except.ok 2000000 ∧
    (2000000 : Int) % 2 = 0 ∧ giveTokens 2000000 = 2000000 / 2 ∧
      testOpenChannelGive 2000000 = Except.ok (2000000 / 2) :=
  ⟨by rfl, (giveTokens_even_half 2000000).1 2000000 (by rfl)⟩

/-- C7: whenever the `askForFunding` verification succeeds, the requested and
verified transit amount is `(capacity + 190 * feeRate) / 2` and the wallet
transaction has an output paying exactly that amount to the transit address;
and at capacity 2000000 with fee rate 10 the amount is exactly 1000950. -/
theorem askForFunding_exact_amount :
    (∀ (capacity rate : Int) (transitScript : String) (outs : List TxOut)
        (res : FundingRes),
      askForFundingCheck capacity rate transitScript (some outs) = Except.ok res →
      res.tokens = ((capacity : ℚ) + 190 * rate) / 2 ∧
        ∃ o ∈ outs, o.script = transitScript ∧ o.value = res.tokens) ∧
    fundingAmount 2000000 10 = 1000950 := by
  constructor
  · intro capacity rate transitScript outs res h
    unfold askForFundingCheck at h
    dsimp only at h
    cases hfind : outs.enum.find? (fun p => p.2.script == transitScript) with
    | none => rw [hfind] at h; simp at h
    | some p =>
      obtain ⟨i, o⟩ := p
      rw [hfind] at h
      by_cases hval : o.value ≠ fundingAmount capacity rate
      · simp [hval] at h
      · push_neg at hval
        simp [hval] at h
        have hmem : (i, o) ∈ outs.enum := List.mem_of_find?_eq_some hfind
        have hsc : o.script = transitScript := by
          have := List.find?_some hfind
          simpa using this
        have homem : o ∈ outs := by
          have : o ∈ outs.enum.map Prod.snd := List.mem_map_of_mem Prod.snd hmem
          rwa [List.enum_map_snd] at this
        subst h
        exact ⟨rfl, o, homem, hsc, hval⟩
  · unfold fundingAmount
    norm_num

/-- Witness for C7: the scenario-A numbers pass the check and expose the
exact-amount output. -/
theorem askForFunding_exact_amount_witness :
    askForFundingCheck 2000000 10 "transit"
        (some [{ script := "transit", value := 1000950 }]) =
      Except.ok { tokens := 1000950, transaction_vout := 0 } ∧
    (1000950 : ℚ) = ((2000000 : ℚ) + 190 * 10) / 2 ∧
    ∃ o ∈ [({ script := "transit", value := 1000950 } : TxOut)],
      o.script = "transit" ∧ o.value = (1000950 : ℚ) := by
  have h : askForFundingCheck 2000000 10 "transit"
      (some [{ script := "transit", value := 1000950 }]) =
      Except.ok { tokens := 1000950, transaction_vout := 0 } := by
    unfold askForFundingCheck
    dsimp only
    have hamt : fundingAmount 2000000 10 = (1000950 : ℚ) := by
      unfold fundingAmount; norm_num
    rw [hamt,
      show ([({ script := "transit", value := 1000950 } : TxOut)].enum).find?
          (fun p => p.2.script == "transit") =
        some (0, { script := "transit", value := 1000950 }) from rfl]
    norm_num
  have h2 := askForFunding_exact_amount.1 2000000 10 "transit"
    [{ script := "transit", value := 1000950 }]
    { tokens := 1000950, transaction_vout := 0 } h
  exact ⟨h, h2.1, h2.2⟩

/-- C8: an odd capacity entered at the capacity prompt makes the prompt chain
fail with the even-capacity validation error; no task downstream of the prompt
(fee-rate prompt, wallet funding, output verification) runs, so no funding
transaction is built. -/
theorem odd_capacity_fails_validation (capacity rate : Int)
    (transitScript : String) (fund : Option (List TxOut))
    (h : capacity % 2 ≠ 0) :
    captureFunding capacity rate transitScript fund =
      Except.error "ExpectedEvenCapacityToSplitBalance" := by
  unfold captureFunding askForCapacity
  simp only [h, if_pos, ite_true, ne_eq, not_false_iff]
  rfl

/-- Witness for C8 at the odd capacity 1000001 of scenario B. -/
theorem odd_capacity_fails_validation_witness :
    (1000001 : Int) % 2 ≠ 0 ∧
    captureFunding 1000001 10 "transit" (some [{ script := "transit", value := 500 }]) =
      Except.error "ExpectedEvenCapacityToSplitBalance" :=
  ⟨by decide,
    odd_capacity_fails_validation 1000001 10 "transit"
      (some [{ script := "transit", value := 500 }]) (by decide)⟩

/-- Helper: once both listeners are deregistered every further event is a
no-op with no resolution. -/
theorem stepWait_dead (parse : List NegRecord → Except String AcceptDetails)
    (partnerKey expectedId : String) (msType : Nat) (e : WaitEvent) :
    stepWait parse partnerKey expectedId msType ⟨false, false⟩ e =
      (⟨false, false⟩, none) := by
  cases e <;> simp [stepWait]

/-- Helper: a whole trace after deregistration produces no resolution. -/
theorem runWait_dead (parse : List NegRecord → Except String AcceptDetails)
    (partnerKey expectedId : String) (msType : Nat) (es : List WaitEvent) :
    runWait parse partnerKey expectedId msType ⟨false, false⟩ es =
      (⟨false, false⟩, []) := by
  induction es with
  | nil => rfl
  | cons e rest ih =>
    simp only [runWait]
    rw [stepWait_dead]
    simpa using ih

/-- Helper: from the fully armed state, a valid event of either path resolves
with parsed acceptance details and deregisters both listeners. -/
theorem stepWait_valid_resolves (parse : List NegRecord → Except String AcceptDetails)
    (partnerKey expectedId : String) (msType : Nat) (e : WaitEvent)
    (hv : ValidPeerEvent parse partnerKey expectedId e ∨ ValidInvoiceEvent parse msType e) :
    ∃ a, stepWait parse partnerKey expectedId msType ⟨true, true⟩ e =
      (⟨false, false⟩, some (WaitOutcome.accepted a)) := by
  cases e with
  | peer sender records =>
    rcases hv with hv | hv
    · simp only [ValidPeerEvent] at hv
      obtain ⟨hs, ⟨r, hr, hrv⟩, ⟨a, ha⟩⟩ := hv
      subst hs
      exact ⟨a, by simp [stepWait, hr, hrv, ha]⟩
    · simp [ValidInvoiceEvent] at hv
  | invoice inv =>
    rcases hv with hv | hv
    · simp [ValidPeerEvent] at hv
    · simp only [ValidInvoiceEvent] at hv
      obtain ⟨hc, p, hp, a, ha⟩ := hv
      exact ⟨a, by simp [stepWait, hc, hp, ha]⟩
  | subError =>
    rcases hv with hv | hv
    · simp [ValidPeerEvent] at hv
    · simp [ValidInvoiceEvent] at hv

/-- C1: over any nonempty trace of events in which both acceptance paths fire
only with valid payloads (in particular any interleaving where both the direct
peer message and the invoice settlement arrive), the wait resolves exactly
once: a single `accepted` outcome is produced, the winning branch having
removed the invoice listeners and stopped the peer-message service first, so
the remaining events are no-ops and the downstream `propose` task runs on one
acceptance only. -/
theorem acceptance_race_single_resolution
    (parse : List NegRecord → Except String AcceptDetails)
    (partnerKey expectedId : String) (msType : Nat) (es : List WaitEvent)
    (hne : es ≠ [])
    (hall : ∀ e ∈ es, ValidPeerEvent parse partnerKey expectedId e ∨
      ValidInvoiceEvent parse msType e) :
    ∃ a, runWait parse partnerKey expectedId msType ⟨true, true⟩ es =
      (⟨false, false⟩, [WaitOutcome.accepted a]) := by
  cases es with
  | nil => exact absurd rfl hne
  | cons e rest =>
    obtain ⟨a, ha⟩ := stepWait_valid_resolves parse partnerKey expectedId msType e
      (hall e (List.mem_cons_self e rest))
    refine ⟨a, ?_⟩
    simp only [runWait]
    rw [ha, runWait_dead]
    simp

/-- Witness for C1: both paths fire validly, in the order peer message first
then settlement; exactly one acceptance results. -/
theorem acceptance_race_single_resolution_witness :
    ∃ a, runWait (fun _ => Except.ok (⟨"", "", "", "", 0⟩ : AcceptDetails))
        "pk" "id" 7 ⟨true, true⟩
        [WaitEvent.peer "pk" [⟨0, "id"⟩],
         WaitEvent.invoice ⟨true, [⟨[⟨7, "aa"⟩]⟩]⟩] =
      (⟨false, false⟩, [WaitOutcome.accepted a]) :=
  acceptance_race_single_resolution _ "pk" "id" 7 _ (by simp)
    (by
      intro e he
      simp only [List.mem_cons, List.not_mem_nil, or_false] at he
      rcases he with rfl | rfl
      · exact Or.inl ⟨rfl, ⟨⟨0, "id"⟩, rfl, rfl⟩, ⟨⟨"", "", "", "", 0⟩, rfl⟩⟩
      · exact Or.inr ⟨rfl, ⟨⟨[⟨7, "aa"⟩]⟩, rfl, ⟨⟨"", "", "", "", 0⟩, rfl⟩⟩⟩)

/-- C3: the direct peer-message handler resolves only when the sender is the
partner and the type-0 record of the message equals the expected id; on a sender or
correlation-id mismatch the message is ignored: no resolution and the listener
state (in particular the armed invoice subscription) is unchanged. -/
theorem peer_message_match_required
    (parse : List NegRecord → Except String AcceptDetails)
    (partnerKey expectedId : String) (msType : Nat) (s : WaitState)
    (sender : String) (records : List NegRecord) :
    ((stepWait parse partnerKey expectedId msType s
        (WaitEvent.peer sender records)).2 ≠ none →
      s.p2pOn = true ∧ sender = partnerKey ∧
        ∃ r, records.find? (fun x => x.type == 0) = some r ∧
          r.value = expectedId) ∧
    ((sender ≠ partnerKey ∨
        ∀ r, records.find? (fun x => x.type == 0) = some r →
          r.value ≠ expectedId) →
      stepWait parse partnerKey expectedId msType s
        (WaitEvent.peer sender records) = (s, none)) := by
  constructor
  · intro h
    cases hp2 : s.p2pOn with
    | false => simp [stepWait, hp2] at h
    | true =>
      by_cases hs : sender ≠ partnerKey
      · simp [stepWait, hp2, hs] at h
      · push_neg at hs
        cases hf : records.find? (fun x => x.type == 0) with
        | none => simp [stepWait, hp2, hs, hf] at h
        | some r =>
          by_cases h3 : r.value ≠ expectedId
          · simp [stepWait, hp2, hs, hf, h3] at h
          · push_neg at h3
            exact ⟨rfl, hs, r, rfl, h3⟩
  · intro h
    rcases h with h | h
    · cases hp2 : s.p2pOn <;> simp [stepWait, hp2, h]
    · cases hp2 : s.p2pOn with
      | false => simp [stepWait, hp2]
      | true =>
        by_cases hs : sender ≠ partnerKey
        · simp [stepWait, hp2, hs]
        · push_neg at hs
          cases hf : records.find? (fun x => x.type == 0) with
          | none => simp [stepWait, hp2, hs, hf]
          | some r => simp [stepWait, hp2, hs, hf, h r hf]

/-- Witness for C3: a message from the right peer carrying a non-matching
correlation id is ignored and leaves both listeners armed. -/
theorem peer_message_match_required_witness :
    stepWait (fun _ => Except.ok (⟨"", "", "", "", 0⟩ : AcceptDetails))
        "pk" "expected" 7 ⟨true, true⟩
        (WaitEvent.peer "pk" [⟨0, "other"⟩]) = (⟨true, true⟩, none) :=
  (peer_message_match_required _ "pk" "expected" 7 ⟨true, true⟩ "pk"
      [⟨0, "other"⟩]).2
    (Or.inr (fun r hr => by
      rw [show ([(⟨0, "other"⟩ : NegRecord)].find? (fun x => x.type == 0)) =
          some ⟨0, "other"⟩ from rfl] at hr
      cases hr
      decide))

/-- C9: when the acceptance invoice confirms but none of its settling payments
carries a record of the multisig-public-key type, the wait tears down both
listeners and fails with the missing-acceptance-payload error instead of
resolving with acceptance details. -/
theorem settled_without_multisig_record_fails
    (parse : List NegRecord → Except String AcceptDetails)
    (partnerKey expectedId : String) (msType : Nat) (inv : Invoice)
    (hconf : inv.is_confirmed = true)
    (hnone : ∀ p ∈ inv.payments, ∀ m ∈ p.messages, m.type ≠ msType) :
    stepWait parse partnerKey expectedId msType ⟨true, true⟩
        (WaitEvent.invoice inv) =
      (⟨false, false⟩,
       some (WaitOutcome.failed "ExpectedPaymentWithPeerChannelDetails")) := by
  have hf : inv.payments.find?
      (fun p => p.messages.any (fun m => m.type == msType)) = none := by
    rw [List.find?_eq_none]
    intro p hp
    simp only [List.any_eq_true, beq_iff_eq, not_exists, not_and]
    intro m hm
    exact hnone p hp m hm
  simp [stepWait, hconf, hf]

/-- Witness for C9: a confirmed invoice whose only payment carries a record of
a different type fails with the expected error. -/
theorem settled_without_multisig_record_fails_witness :
    stepWait (fun _ => Except.ok (⟨"", "", "", "", 0⟩ : AcceptDetails))
        "pk" "id" 7 ⟨true, true⟩
        (WaitEvent.invoice ⟨true, [⟨[⟨8, "aa"⟩]⟩]⟩) =
      (⟨false, false⟩,
       some (WaitOutcome.failed "ExpectedPaymentWithPeerChannelDetails")) :=
  settled_without_multisig_record_fails _ "pk" "id" 7 _ rfl
    (by
      intro p hp m hm
      fin_cases hp
      fin_cases hm
      decide)

/-- C10: when the test message to the peer errors, the `p2pService` task still
succeeds, handing back the no-op service; with it, no peer message can ever
resolve the wait (the handler was never registered), while a valid invoice
settlement still resolves it, so the rest of the protocol proceeds unchanged
with the settlement path as the only acceptance channel. -/
theorem p2p_send_failure_uses_dummy (errMsg : String)
    (parse : List NegRecord → Except String AcceptDetails)
    (partnerKey expectedId : String) (msType : Nat) :
    p2pServiceTask (some errMsg) = Except.ok P2PService.dummy ∧
    (∀ sender records,
      stepWait parse partnerKey expectedId msType
        (startWaitState P2PService.dummy) (WaitEvent.peer sender records) =
      (startWaitState P2PService.dummy, none)) ∧
    (∀ e, ValidInvoiceEvent parse msType e →
      ∃ a, stepWait parse partnerKey expectedId msType
          (startWaitState P2PService.dummy) e =
        (⟨false, false⟩, some (WaitOutcome.accepted a))) := by
  refine ⟨rfl, ?_, ?_⟩
  · intro sender records
    simp [stepWait, startWaitState]
  · intro e hv
    cases e with
    | peer sender records => simp [ValidInvoiceEvent] at hv
    | subError => simp [ValidInvoiceEvent] at hv
    | invoice inv =>
      simp only [ValidInvoiceEvent] at hv
      obtain ⟨hc, p, hp, a, ha⟩ := hv
      exact ⟨a, by simp [stepWait, startWaitState, hc, hp, ha]⟩

/-- Witness for C10: with the dummy service a matching peer message is a no-op
while a valid settlement still yields the acceptance. -/
theorem p2p_send_failure_uses_dummy_witness :
    p2pServiceTask (some "err") = Except.ok P2PService.dummy ∧
    stepWait (fun _ => Except.ok (⟨"", "", "", "", 0⟩ : AcceptDetails))
        "pk" "id" 7 (startWaitState P2PService.dummy)
        (WaitEvent.peer "pk" [⟨0, "id"⟩]) = (startWaitState P2PService.dummy, none) ∧
    ∃ a, stepWait (fun _ => Except.ok (⟨"", "", "", "", 0⟩ : AcceptDetails))
        "pk" "id" 7 (startWaitState P2PService.dummy)
        (WaitEvent.invoice ⟨true, [⟨[⟨7, "aa"⟩]⟩]⟩) =
      (⟨false, false⟩, some (WaitOutcome.accepted a)) := by
  obtain ⟨h1, h2, h3⟩ := p2p_send_failure_uses_dummy "err"
    (fun _ => Except.ok (⟨"", "", "", "", 0⟩ : AcceptDetails)) "pk" "id" 7
  exact ⟨h1, h2 "pk" [⟨0, "id"⟩],
    h3 _ ⟨rfl, ⟨[⟨7, "aa"⟩]⟩, rfl, ⟨⟨"", "", "", "", 0⟩, rfl⟩⟩⟩

/-- Witness for C4 at a concrete pair of permuted record lists. -/
theorem correlationDigest_perm_invariant_witness :
    (([⟨5482373484, "aa"⟩, ⟨80502, "0f4240"⟩, ⟨80504, "02ff"⟩] :
        List NegRecord).map NegRecord.type).Nodup ∧
    ([⟨5482373484, "aa"⟩, ⟨80502, "0f4240"⟩, ⟨80504, "02ff"⟩] : List NegRecord).Perm
      [⟨80504, "02ff"⟩, ⟨5482373484, "aa"⟩, ⟨80502, "0f4240"⟩] ∧
    correlationDigest [⟨5482373484, "aa"⟩, ⟨80502, "0f4240"⟩, ⟨80504, "02ff"⟩] =
      correlationDigest [⟨80504, "02ff"⟩, ⟨5482373484, "aa"⟩, ⟨80502, "0f4240"⟩] :=
  ⟨by decide, by decide,
    correlationDigest_perm_invariant _ _ (by decide) (by decide)⟩

/-! ### Helper lemmas: the `halfSign` input comparator -/

theorem strCompare_zero (a b : String) (h : strCompare a b = 0) : a = b := by
  unfold strCompare at h
  by_cases h1 : strLt a b = true
  · rw [if_pos h1] at h
    exact absurd h (by norm_num)
  · rw [if_neg h1] at h
    by_cases h2 : strLt b a = true
    · rw [if_pos h2] at h
      exact absurd h (by norm_num)
    · exact strLt_antisymm a b (by simpa using h1) (by simpa using h2)

theorem strCompare_antisym (a b : String) : strCompare b a = -strCompare a b := by
  unfold strCompare
  by_cases h1 : strLt a b = true
  · simp [h1, strLt_asymm a b h1]
  · by_cases h2 : strLt b a = true <;> simp [h1, h2]

theorem strCompare_pos_iff (a b : String) : 0 < strCompare a b ↔ strLt b a = true := by
  unfold strCompare
  by_cases h1 : strLt a b = true
  · simp [h1, strLt_asymm a b h1]
  · by_cases h2 : strLt b a = true <;> simp [h1, h2]

theorem strCompare_neg_iff (a b : String) : strCompare a b < 0 ↔ strLt a b = true := by
  unfold strCompare
  by_cases h1 : strLt a b = true
  · simp [h1]
  · by_cases h2 : strLt b a = true <;> simp [h1, h2]

theorem inputCmp_antisym (a b : TxIn) : inputCmp b a = -inputCmp a b := by
  unfold inputCmp
  rw [strCompare_antisym (bytesToHex a.hash) (bytesToHex b.hash)]
  by_cases hc : strCompare (bytesToHex a.hash) (bytesToHex b.hash) = 0
  · simp [hc]
  · simp [hc]

theorem mkTxIn_hash_lt (u : Utxo) : ∀ x ∈ (mkTxIn u).hash, x < 256 := by
  intro x hx
  simp only [mkTxIn, idAsHash, List.mem_reverse] at hx
  exact hexToBytes_lt _ x hx

/-- Helper: for two distinct outpoints with canonical txids the comparator
never returns zero. -/
theorem mkTxIn_cmp_ne_zero (u1 u2 : Utxo)
    (h1 : ValidTxId u1.transaction_id) (h2 : ValidTxId u2.transaction_id)
    (hne : (u1.transaction_id, u1.transaction_vout) ≠
      (u2.transaction_id, u2.transaction_vout)) :
    inputCmp (mkTxIn u1) (mkTxIn u2) ≠ 0 := by
  intro h0
  unfold inputCmp at h0
  by_cases hs : strCompare (bytesToHex (mkTxIn u1).hash)
      (bytesToHex (mkTxIn u2).hash) = 0
  · have hidx : ((mkTxIn u1).index : Int) - ((mkTxIn u2).index : Int) = 0 := by
      simpa [hs] using h0
    have hhex := strCompare_zero _ _ hs
    have hb : (mkTxIn u1).hash = (mkTxIn u2).hash :=
      bytesToHex_inj _ _ (mkTxIn_hash_lt u1) (mkTxIn_hash_lt u2) hhex
    have hxb : hexToBytes u1.transaction_id = hexToBytes u2.transaction_id := by
      have hrev : (hexToBytes u1.transaction_id).reverse =
          (hexToBytes u2.transaction_id).reverse := hb
      simpa using hrev
    have hid := hexToBytes_inj _ _ h1 h2 hxb
    have hvout : u1.transaction_vout = u2.transaction_vout := by
      simp only [mkTxIn] at hidx
      omega
    exact hne (by rw [hid, hvout])
  · rw [if_pos hs] at h0
    exact hs h0

/-- C2 counterexample: at two concrete distinct outpoints the inputs built by
`halfSign` are not in ascending `(txid-hex, vout)` order: the code sorts by the
hex of the byte-reversed txid (the internal hash), which reverses the claimed
order for these txids. -/
theorem halfSign_not_txid_hex_ordered :
    halfSignInputs
        ⟨"0000000000000000000000000000000000000000000000000000000000000001", 0⟩
        ⟨"0100000000000000000000000000000000000000000000000000000000000000", 1⟩ =
      [mkTxIn ⟨"0100000000000000000000000000000000000000000000000000000000000000", 1⟩,
       mkTxIn ⟨"0000000000000000000000000000000000000000000000000000000000000001", 0⟩] ∧
    specTxidOrderedInputs
        ⟨"0000000000000000000000000000000000000000000000000000000000000001", 0⟩
        ⟨"0100000000000000000000000000000000000000000000000000000000000000", 1⟩ =
      [mkTxIn ⟨"0000000000000000000000000000000000000000000000000000000000000001", 0⟩,
       mkTxIn ⟨"0100000000000000000000000000000000000000000000000000000000000000", 1⟩] ∧
    mkTxIn ⟨"0000000000000000000000000000000000000000000000000000000000000001", 0⟩ ≠
      mkTxIn ⟨"0100000000000000000000000000000000000000000000000000000000000000", 1⟩ := by
  refine ⟨by decide, by decide, by decide⟩

/-- C2 as amended: for distinct outpoints with canonical txids, `halfSign`
builds exactly the two contributed inputs, ordered ascending by the pair
(byte-reversed txid hex, vout) — not by displayed txid hex — and the
construction is commutative: both "self-first" and "peer-first" orders yield
the identical transaction structure, hence the identical unsigned
serialization and transaction id. -/
theorem halfSign_canonical (funding accept : Utxo) (fundingScript : String)
    (capacity : Int)
    (h1 : ValidTxId funding.transaction_id) (h2 : ValidTxId accept.transaction_id)
    (hne : (funding.transaction_id, funding.transaction_vout) ≠
      (accept.transaction_id, accept.transaction_vout)) :
    halfSignTx funding accept fundingScript capacity =
      halfSignTx accept funding fundingScript capacity ∧
    (halfSignInputs funding accept).length = 2 ∧
    List.Perm (halfSignInputs funding accept) [mkTxIn funding, mkTxIn accept] ∧
    SortedByHashHex (halfSignInputs funding accept) := by
  have hcz := mkTxIn_cmp_ne_zero funding accept h1 h2 hne
  have hanti := inputCmp_antisym (mkTxIn funding) (mkTxIn accept)
  constructor
  · unfold halfSignTx halfSignInputs jsSortPair
    by_cases h : inputCmp (mkTxIn funding) (mkTxIn accept) > 0
    · have h' : ¬ inputCmp (mkTxIn accept) (mkTxIn funding) > 0 := by omega
      simp [h, h']
    · have h' : inputCmp (mkTxIn accept) (mkTxIn funding) > 0 := by
        have : inputCmp (mkTxIn funding) (mkTxIn accept) < 0 := by omega
        omega
      simp [h, h']
  · refine ⟨?_, ?_, ?_⟩
    · unfold halfSignInputs jsSortPair
      by_cases h : inputCmp (mkTxIn funding) (mkTxIn accept) > 0 <;> simp [h]
    · unfold halfSignInputs jsSortPair
      by_cases h : inputCmp (mkTxIn funding) (mkTxIn accept) > 0 <;> simp [h]
      exact List.Perm.swap _ _ _
    · unfold halfSignInputs jsSortPair
      by_cases h : inputCmp (mkTxIn funding) (mkTxIn accept) > 0
      · rw [if_pos h]
        unfold inputCmp at h
        by_cases hs : strCompare (bytesToHex (mkTxIn funding).hash)
            (bytesToHex (mkTxIn accept).hash) = 0
        · rw [if_neg (by simpa using hs)] at h
          have := strCompare_zero _ _ hs
          simp only [SortedByHashHex]
          right
          exact ⟨this.symm, by omega⟩
        · rw [if_pos hs] at h
          have := (strCompare_pos_iff _ _).mp h
          simp only [SortedByHashHex]
          left
          exact this
      · rw [if_neg h]
        have hlt : inputCmp (mkTxIn funding) (mkTxIn accept) < 0 := by omega
        unfold inputCmp at hlt
        by_cases hs : strCompare (bytesToHex (mkTxIn funding).hash)
            (bytesToHex (mkTxIn accept).hash) = 0
        · rw [if_neg (by simpa using hs)] at hlt
          have := strCompare_zero _ _ hs
          simp only [SortedByHashHex]
          right
          exact ⟨this, by omega⟩
        · rw [if_pos hs] at hlt
          have := (strCompare_neg_iff _ _).mp hlt
          simp only [SortedByHashHex]
          left
          exact this

/-- Witness for the amended C2 at two concrete distinct canonical outpoints. -/
theorem halfSign_canonical_witness :
    ValidTxId "0000000000000000000000000000000000000000000000000000000000000001" ∧
    ValidTxId "0100000000000000000000000000000000000000000000000000000000000000" ∧
    (halfSignTx
        ⟨"0000000000000000000000000000000000000000000000000000000000000001", 0⟩
        ⟨"0100000000000000000000000000000000000000000000000000000000000000", 1⟩
        "0020aabb" 2000000 =
      halfSignTx
        ⟨"0100000000000000000000000000000000000000000000000000000000000000", 1⟩
        ⟨"0000000000000000000000000000000000000000000000000000000000000001", 0⟩
        "0020aabb" 2000000 ∧
    (halfSignInputs
        ⟨"0000000000000000000000000000000000000000000000000000000000000001", 0⟩
        ⟨"0100000000000000000000000000000000000000000000000000000000000000", 1⟩).length = 2 ∧
    List.Perm
      (halfSignInputs
        ⟨"0000000000000000000000000000000000000000000000000000000000000001", 0⟩
        ⟨"0100000000000000000000000000000000000000000000000000000000000000", 1⟩)
      [mkTxIn ⟨"0000000000000000000000000000000000000000000000000000000000000001", 0⟩,
       mkTxIn ⟨"0100000000000000000000000000000000000000000000000000000000000000", 1⟩] ∧
    SortedByHashHex
      (halfSignInputs
        ⟨"0000000000000000000000000000000000000000000000000000000000000001", 0⟩
        ⟨"0100000000000000000000000000000000000000000000000000000000000000", 1⟩)) :=
  ⟨by decide, by decide,
    halfSign_canonical _ _ "0020aabb" 2000000 (by decide) (by decide) (by decide)⟩

end BOS
